import Mathlib

/-!
# Verification of the Gradium SDK streaming session engine

Shallow embedding of the `gradium-sdk-js` source (TypeScript) in Lean 4:

* the base64 payload codec (`btoa`/`atob` as used by `STTStream.sendAudio`
  and the TTS `audio` message handler),
* the wire envelope types from `src/types.ts`,
* the `TTSStream` / `STTStream` message-handler state machines
  (`setupMessageHandler`), with JavaScript promises modelled as one-shot
  settled cells (`Option (Except e a)`: `none` = pending, and a settle on an
  already-settled cell is a no-op, which is exactly `Promise` semantics),
* the consumer operations (`waitReady`, `collect`, `collectText`, the async
  iterators, `sendText`, `sendAudio`, `STT.transcribe` chunking),
* `handleAPIError` from `src/errors.ts`.

Inbound events are the arguments of `ws.onmessage` after `JSON.parse`:
either a parsed server message or a parse failure (the `catch` branch).
Channel-level events (`onerror` / `onclose`) are outside the claims
treated here and are not part of the inbound alphabet.
-/

namespace Gradium

/-! ## Base64 codec (`btoa` / `atob` over byte lists) -/

/-- The base64 alphabet used by `btoa`. -/
def b64alphabet : List Char :=
  "ABCDEFGHIJKLMNOPQRSTUVWXYZabcdefghijklmnopqrstuvwxyz0123456789+/".toList

/-- Index into the base64 alphabet (total; callers pass sextets `< 64`). -/
def b64char (n : Nat) : Char := b64alphabet.getD n '*'

/-- Position of a character in a list of characters, if present. -/
def indexIn : List Char → Char → Option Nat
  | [], _ => none
  | a :: rest, c => if a = c then some 0 else (indexIn rest c).map (· + 1)

/-- Sextet value of a base64 character (`atob`'s inverse alphabet). -/
def b64val (c : Char) : Option Nat := indexIn b64alphabet c

/-- Model of `btoa(String.fromCharCode(...bytes))`: encode a byte list to base64
characters, three bytes per four characters with `=` padding. -/
def b64encodeAux : List Nat → List Char
  | [] => []
  | [a] => [b64char (a / 4), b64char (a % 4 * 16), '=', '=']
  | [a, b] =>
      [b64char (a / 4), b64char (a % 4 * 16 + b / 16), b64char (b % 16 * 4), '=']
  | a :: b :: c :: rest =>
      b64char (a / 4) :: b64char (a % 4 * 16 + b / 16) ::
        b64char (b % 16 * 4 + c / 64) :: b64char (c % 64) :: b64encodeAux rest

/-- Model of `atob` back to a byte list; `none` models the `InvalidCharacterError`
throw on input that is not well-formed base64. -/
def b64decodeAux : List Char → Option (List Nat)
  | c1 :: c2 :: c3 :: c4 :: rest =>
      (b64val c1).bind fun v1 =>
      (b64val c2).bind fun v2 =>
      if c3 = '=' then
        if c4 = '=' ∧ rest = [] then some [v1 * 4 + v2 / 16] else none
      else
        (b64val c3).bind fun v3 =>
        if c4 = '=' then
          if rest = [] then some [v1 * 4 + v2 / 16, v2 % 16 * 16 + v3 / 4]
          else none
        else
          (b64val c4).bind fun v4 =>
          (b64decodeAux rest).map
            (fun tail => (v1 * 4 + v2 / 16) :: (v2 % 16 * 16 + v3 / 4) ::
              (v3 % 4 * 64 + v4) :: tail)
  | [] => some []
  | _ => none

/-- Byte list to base64 string, as `btoa(String.fromCharCode(...audio))`. -/
def b64encode (bytes : List Nat) : String := String.mk (b64encodeAux bytes)

/-- Base64 string back to a byte list, as
`Uint8Array.from(atob(s), c => c.charCodeAt(0))`. -/
def b64decode (s : String) : Option (List Nat) := b64decodeAux s.toList

theorem b64val_b64char (n : Nat) (h : n < 64) : b64val (b64char n) = some n := by
  revert h
  revert n
  decide

theorem b64char_ne_pad (n : Nat) (h : n < 64) : b64char n ≠ '=' := by
  revert h
  revert n
  decide

theorem b64_roundtrip_aux :
    ∀ l : List Nat, (∀ b ∈ l, b < 256) → b64decodeAux (b64encodeAux l) = some l
  | [], _ => by simp [b64encodeAux, b64decodeAux]
  | [a], h => by
      have ha : a < 256 := h a (by simp)
      have h1 : b64val (b64char (a / 4)) = some (a / 4) :=
        b64val_b64char _ (by omega)
      have h2 : b64val (b64char (a % 4 * 16)) = some (a % 4 * 16) :=
        b64val_b64char _ (by omega)
      simp only [b64encodeAux, b64decodeAux, h1, h2, Option.some_bind]
      simp only [if_pos rfl, and_self, ite_true, Option.some.injEq,
        List.cons.injEq, and_true]
      omega
  | [a, b], h => by
      have ha : a < 256 := h a (by simp)
      have hb : b < 256 := h b (by simp)
      have h1 : b64val (b64char (a / 4)) = some (a / 4) :=
        b64val_b64char _ (by omega)
      have h2 : b64val (b64char (a % 4 * 16 + b / 16)) =
          some (a % 4 * 16 + b / 16) := b64val_b64char _ (by omega)
      have h3 : b64val (b64char (b % 16 * 4)) = some (b % 16 * 4) :=
        b64val_b64char _ (by omega)
      have h3ne : b64char (b % 16 * 4) ≠ '=' := b64char_ne_pad _ (by omega)
      simp only [b64encodeAux, b64decodeAux, h1, h2, h3, Option.some_bind,
        if_neg h3ne, if_pos rfl, ite_true, Option.some.injEq, List.cons.injEq,
        and_true]
      constructor <;> omega
  | a :: b :: c :: rest, h => by
      have ha : a < 256 := h a (by simp)
      have hb : b < 256 := h b (by simp)
      have hc : c < 256 := h c (by simp)
      have hrest : ∀ x ∈ rest, x < 256 := fun x hx => h x (by simp [hx])
      have h1 : b64val (b64char (a / 4)) = some (a / 4) :=
        b64val_b64char _ (by omega)
      have h2 : b64val (b64char (a % 4 * 16 + b / 16)) =
          some (a % 4 * 16 + b / 16) := b64val_b64char _ (by omega)
      have h3 : b64val (b64char (b % 16 * 4 + c / 64)) =
          some (b % 16 * 4 + c / 64) := b64val_b64char _ (by omega)
      have h4 : b64val (b64char (c % 64)) = some (c % 64) :=
        b64val_b64char _ (by omega)
      have h3ne : b64char (b % 16 * 4 + c / 64) ≠ '=' :=
        b64char_ne_pad _ (by omega)
      have h4ne : b64char (c % 64) ≠ '=' := b64char_ne_pad _ (by omega)
      have ih := b64_roundtrip_aux rest hrest
      simp only [b64encodeAux, b64decodeAux, h1, h2, h3, h4, Option.some_bind,
        if_neg h3ne, if_neg h4ne, ih, Option.map_some', Option.some.injEq,
        List.cons.injEq]
      refine ⟨by omega, by omega, by omega, trivial⟩

/-- Base64 round trip on byte lists: decoding the string `sendAudio`
produces from a byte array gives back exactly that byte array. -/
theorem b64_roundtrip (l : List Nat) (h : ∀ b ∈ l, b < 256) :
    b64decode (b64encode l) = some l :=
  b64_roundtrip_aux l h

/-! ## `STT.transcribe` chunking

`const chunkSize = 1920 * 2;` and the slicing loop
`for (let i = 0; i < audio.length; i += chunkSize)`. -/

/-- The recommended slice size used by `STT.transcribe`
(1920 samples at 16-bit, 2 bytes per sample). -/
def chunkSize : Nat := 1920 * 2

/-- The successive `audio.slice(i, min(i + chunkSize, audio.length))` slices
taken by the `STT.transcribe` loop, in order. -/
def chunksOf (l : List Nat) : List (List Nat) :=
  if h : l = [] then []
  else l.take chunkSize :: chunksOf (l.drop chunkSize)
termination_by l.length
decreasing_by
  simp only [List.length_drop]
  have : 0 < l.length := List.length_pos.mpr h
  simp only [chunkSize]
  omega

theorem chunksOf_join (l : List Nat) : (chunksOf l).flatten = l := by
  generalize hn : l.length = n
  induction n using Nat.strong_induction_on generalizing l with
  | _ n ih =>
    rw [chunksOf]
    split
    · simp [*]
    · rename_i hne
      have hpos : 0 < l.length := List.length_pos.mpr hne
      simp only [List.flatten_cons]
      rw [ih ((l.drop chunkSize).length) (by simp [List.length_drop, chunkSize]; omega)
        (l.drop chunkSize) rfl]
      exact List.take_append_drop _ l

theorem chunksOf_length (l : List Nat) :
    (chunksOf l).length = (l.length + (chunkSize - 1)) / chunkSize := by
  generalize hn : l.length = n
  induction n using Nat.strong_induction_on generalizing l with
  | _ n ih =>
    rw [chunksOf]
    split
    · rename_i he
      subst he
      simp at hn
      subst hn
      simp [chunkSize]
    · rename_i hne
      have hpos : 0 < l.length := List.length_pos.mpr hne
      simp only [List.length_cons]
      rw [ih ((l.drop chunkSize).length) (by simp [List.length_drop, chunkSize]; omega)
        (l.drop chunkSize) rfl]
      simp only [List.length_drop, chunkSize] at *
      omega

theorem chunksOf_le (l : List Nat) :
    ∀ c ∈ chunksOf l, c.length ≤ chunkSize := by
  generalize hn : l.length = n
  induction n using Nat.strong_induction_on generalizing l with
  | _ n ih =>
    rw [chunksOf]
    split
    · simp
    · rename_i hne
      have hpos : 0 < l.length := List.length_pos.mpr hne
      intro c hc
      rcases List.mem_cons.mp hc with h1 | h2
      · subst h1
        simp [List.length_take]
      · exact ih ((l.drop chunkSize).length)
          (by simp [List.length_drop, chunkSize]; omega)
          (l.drop chunkSize) rfl c h2

theorem chunksOf_mem_bytes (l : List Nat) (hl : ∀ b ∈ l, b < 256) :
    ∀ c ∈ chunksOf l, ∀ b ∈ c, b < 256 := by
  generalize hn : l.length = n
  induction n using Nat.strong_induction_on generalizing l with
  | _ n ih =>
    rw [chunksOf]
    split
    · simp
    · rename_i hne
      have hpos : 0 < l.length := List.length_pos.mpr hne
      intro c hc
      rcases List.mem_cons.mp hc with h1 | h2
      · subst h1
        exact fun b hb => hl b (List.take_subset _ _ hb)
      · exact ih ((l.drop chunkSize).length)
          (by simp [List.length_drop, chunkSize]; omega)
          (l.drop chunkSize) (fun b hb => hl b (List.drop_subset _ _ hb)) rfl
          c h2

/-! ## Error taxonomy (`src/errors.ts`)

Each constructor mirrors one error class; fields mirror the data the class
stores (`message`, plus `status` / `code` / `retryAfter` / `errors` where the
class has them). `jsError` stands for a plain JavaScript `Error` / `TypeError`
(e.g. the one `JSON.parse` throws, caught in the message handler). -/

/-- Type `ValidationErrorDetail` from `src/types.ts`; `loc` entries are
`string | number`. -/
structure ValidationErrorDetail where
  loc : List (String ⊕ Nat)
  msg : String
  type : String
deriving DecidableEq

/-- The truthiness/shape of the parsed error-response body, as tested by
`typeof body === "object" && "detail" in body`: an object whose `detail` is
an array of validation details, an object whose `detail` is a string, or
anything else (no `detail` field, non-object, or unparsable). -/
inductive APIBody where
  | detailList (detail : List ValidationErrorDetail)
  | detailStr (detail : String)
  | other
deriving DecidableEq

/-- The error classes of `src/errors.ts` as a sum. -/
inductive GradiumError where
  | authentication (message : String)
  | validation (errors : List ValidationErrorDetail) (message : String)
  | api (status : Nat) (message : String) (body : APIBody)
  | notFound (message : String)
  | rateLimit (message : String) (retryAfter : Option Nat)
  | internalServer (status : Nat) (message : String)
  | webSocket (message : String) (code : Option Nat)
  | timeout (message : String)
  | connection (message : String)
  | jsError (message : String)
deriving DecidableEq

/-- One element of `e.loc`, stringified as JavaScript `Array.prototype.join`
does. -/
def locPart : String ⊕ Nat → String
  | .inl s => s
  | .inr n => toString n

/-- Model of `ValidationError.formatErrors`:
`errors.map((e) => loc.join(".") + ": " + e.msg).join("; ")`. -/
def formatErrors (errors : List ValidationErrorDetail) : String :=
  String.intercalate "; "
    (errors.map fun e => String.intercalate "." (e.loc.map locPart) ++ ": " ++ e.msg)

/-- The `message` computed by the non-422 branches of `handleAPIError`:
`String(body.detail)` when the body has a `detail` field, else the given
default. (JavaScript `String()` of an array of detail objects yields
`"[object Object]"` per element, joined with `","`.) -/
def detailString (body : APIBody) (dflt : String) : String :=
  match body with
  | .detailStr s => s
  | .detailList d => String.intercalate "," (d.map fun _ => "[object Object]")
  | .other => dflt

/-- Model of `handleAPIError` from `src/errors.ts`: maps a non-ok response (status,
parsed body, `retry-after` header) to the error it throws; it throws on every
path, so the model returns the thrown error. In the 422 branch with a
non-array `detail`, the `ValidationError` constructor itself crashes on
`errors.map`, so what escapes is a `TypeError`, modelled as `jsError`. -/
def handleAPIError (status : Nat) (body : APIBody) (retryAfter : Option Nat) :
    GradiumError :=
  if status = 422 ∧ body ≠ .other then
    match body with
    | .detailList d => .validation d (formatErrors d)
    | .detailStr _ => .jsError "TypeError: errors.map is not a function"
    | .other => .jsError "unreachable"
  else if status = 401 ∨ status = 403 then
    .authentication (detailString body "Authentication failed")
  else if status = 404 then
    .notFound (detailString body "Resource not found")
  else if status = 429 then
    .rateLimit (detailString body "Rate limit exceeded") retryAfter
  else if 500 ≤ status then
    .internalServer status
      (detailString body ("Server error (" ++ toString status ++ ")"))
  else
    .api status (detailString body ("API error (" ++ toString status ++ ")"))
      body

/-! ## Promise cells

A JavaScript promise settles exactly once; later `resolve`/`reject` calls are
no-ops. A cell is `none` while pending, `some (.ok v)` once resolved,
`some (.error e)` once rejected. -/

/-- Settle a one-shot cell: a no-op if the cell is already settled. -/
def settleOnce {α : Type} (cur : Option α) (v : α) : Option α :=
  match cur with
  | none => some v
  | some w => some w

theorem settleOnce_none {α : Type} (v : α) : settleOnce none v = some v := rfl

theorem settleOnce_some {α : Type} (w v : α) :
    settleOnce (some w) v = some w := rfl

instance {ε α : Type} [DecidableEq ε] [DecidableEq α] :
    DecidableEq (Except ε α) := fun x y =>
  match x, y with
  | .ok a, .ok b =>
      if h : a = b then .isTrue (congrArg Except.ok h)
      else .isFalse fun hh => h (Except.ok.inj hh)
  | .error a, .error b =>
      if h : a = b then .isTrue (congrArg Except.error h)
      else .isFalse fun hh => h (Except.error.inj hh)
  | .ok _, .error _ => .isFalse fun hh => Except.noConfusion hh
  | .error _, .ok _ => .isFalse fun hh => Except.noConfusion hh

/-! ## TTS wire messages and stream state (`src/types.ts`, `src/resources/tts.ts`) -/

/-- Type `TTSServerMessage`: the inbound envelopes of the TTS direction.
`audio` carries the base64 payload exactly as on the wire. -/
inductive TTSServerMessage where
  | ready (request_id : String)
  | audio (audio : String)
  | error (message : String) (code : Nat)
  | endOfStream
deriving DecidableEq

/-- Type `TTSResult` (with `raw_data` as a byte list). -/
structure TTSResult where
  raw_data : List Nat
  sample_rate : Nat
  request_id : String
deriving DecidableEq

/-- The private mutable state of a `TTSStream`: the append-only
`messageQueue` and `audioChunks` buffers, `requestId`, `isReady`, and the
two promise cells (`readyPromise`, `endPromise`). -/
structure TTSStreamState where
  messageQueue : List TTSServerMessage
  audioChunks : List (List Nat)
  requestId : String
  isReady : Bool
  readyState : Option (Except GradiumError Unit)
  endState : Option (Except GradiumError Unit)
deriving DecidableEq

/-- Field `private readonly sampleRate = 48_000` — a constant, never assigned
after construction. -/
def TTSStream.sampleRate : Nat := 48000

/-- A `TTSStream` right after its constructor ran. -/
def TTSStream.init : TTSStreamState :=
  { messageQueue := [], audioChunks := [], requestId := "", isReady := false,
    readyState := none, endState := none }

/-- One `ws.onmessage` event, abstracted past `JSON.parse`: either data that
parses to a server message, or data on which `JSON.parse` throws (carrying
the thrown error's message). -/
inductive TTSInbound where
  | msg (m : TTSServerMessage)
  | malformed (errMessage : String)
deriving DecidableEq

/-- The `onmessage` callback installed by `TTSStream.setupMessageHandler`,
as a state step. On parse failure only `endReject` runs (the `catch`
block). On `ready` the stream records `request_id`, flips `isReady` and
resolves the ready cell. On `audio` the base64 payload is decoded and
appended; if `atob` throws, the `catch` block end-rejects (the message was
already pushed to the queue). On `error` both cells are rejected with one
`WebSocketError(message, code)`. Every parsed message is appended to
`messageQueue` before the `switch`. -/
def TTSStream.onmessage (s : TTSStreamState) : TTSInbound → TTSStreamState
  | .malformed em =>
      { s with endState := settleOnce s.endState (.error (.jsError em)) }
  | .msg m =>
    let s1 := { s with messageQueue := s.messageQueue ++ [m] }
    match m with
    | .ready rid =>
        { s1 with requestId := rid, isReady := true,
                  readyState := settleOnce s1.readyState (.ok ()) }
    | .audio b64 =>
        match b64decode b64 with
        | some bytes => { s1 with audioChunks := s1.audioChunks ++ [bytes] }
        | none =>
            let e : Except GradiumError Unit :=
              .error (.jsError "InvalidCharacterError")
            { s1 with endState := settleOnce s1.endState e }
    | .endOfStream =>
        { s1 with endState := settleOnce s1.endState (.ok ()) }
    | .error emsg code =>
        let e : GradiumError := .webSocket emsg (some code)
        { s1 with readyState := settleOnce s1.readyState (.error e),
                  endState := settleOnce s1.endState (.error e) }

/-- Deliver a list of inbound events to a stream state, in order. -/
def TTSStream.run (s : TTSStreamState) (evs : List TTSInbound) : TTSStreamState :=
  evs.foldl TTSStream.onmessage s

/-- The state of a fresh stream after a whole inbound sequence. -/
def TTSStream.processAll (evs : List TTSInbound) : TTSStreamState :=
  TTSStream.run TTSStream.init evs

/-- Operation `waitReady()` returns `this.readyPromise`: every caller (past, present,
future) observes the one cell. `none` = still pending. -/
def TTSStream.waitReady (s : TTSStreamState) : Option (Except GradiumError Unit) :=
  s.readyState

/-- Operation `collect()`: awaits `endPromise` (pending → `none`; rejected →
rejects with that error), then concatenates `audioChunks` and returns the
`TTSResult` with the constant sample rate and the stored `requestId`. -/
def TTSStream.collect (s : TTSStreamState) : Option (Except GradiumError TTSResult) :=
  match s.endState with
  | none => none
  | some (.error e) => some (.error e)
  | some (.ok _) =>
      some (.ok { raw_data := s.audioChunks.flatten,
                  sample_rate := TTSStream.sampleRate,
                  request_id := s.requestId })

/-- Test `msg.type === "end_of_stream" || msg.type === "error"`. -/
def ttsTerminalMsg : TTSServerMessage → Bool
  | .endOfStream => true
  | .error _ _ => true
  | _ => false

/-- The termination test of the iterator loop:
`messageQueue.some(msg => msg.type === "end_of_stream" || msg.type === "error")`. -/
def TTSStreamState.hasEnded (s : TTSStreamState) : Bool :=
  s.messageQueue.any ttsTerminalMsg

/-- The `[Symbol.asyncIterator]` generator, evaluated against a quiescent
state (all events delivered): once a terminal message is in the queue it
yields every remaining buffered chunk and breaks out of the polling loop.
The generator body contains no `throw`, so the second component (the
failure the iteration ends with) is always `none` when it terminates;
`none` overall = no terminal message yet, the loop would keep polling. -/
def TTSStream.iterate (s : TTSStreamState) :
    Option (List (List Nat) × Option GradiumError) :=
  if s.hasEnded then some (s.audioChunks, none) else none

/-! ## TTS outbound (client) messages -/

/-- Minimal JSON value universe for the envelope codec (numbers as `Int`;
no numeric field occurs in any outbound envelope). -/
inductive Json where
  | null
  | bool (b : Bool)
  | num (n : Int)
  | str (s : String)
  | arr (elems : List Json)
  | obj (fields : List (String × Json))

/-- Field lookup in a JSON object. -/
def jfield : List (String × Json) → String → Option Json
  | [], _ => none
  | (k, v) :: rest, key => if k = key then some v else jfield rest key

/-- Project a JSON value to a string. -/
def asStr : Option Json → Option String
  | some (.str s) => some s
  | _ => none

/-- Type `TTSClientMessage`: `setup` (with the optional `json_config`), `text`,
`end_of_stream`. `output_format` is carried as its wire string. -/
inductive TTSClientMessage where
  | setup (voice_id : String) (output_format : String) (model_name : String)
      (json_config : Option Json)
  | text (text : String)
  | endOfStream

/-- Codec encode: the JSON object `JSON.stringify` serializes for each
outbound TTS envelope (`json_config` present only when set, as in
`TTS.stream`). -/
def TTSClientMessage.encode : TTSClientMessage → Json
  | .setup v f mn cfg =>
      .obj ([("type", .str "setup"), ("voice_id", .str v),
             ("output_format", .str f), ("model_name", .str mn)] ++
        (match cfg with
         | none => []
         | some j => [("json_config", j)]))
  | .text t => .obj [("type", .str "text"), ("text", .str t)]
  | .endOfStream => .obj [("type", .str "end_of_stream")]

/-- Codec decode: dispatch on the `type` tag and read the variant's fields;
fails on an unrecognized tag or missing field. -/
def TTSClientMessage.decode : Json → Option TTSClientMessage
  | .obj fs =>
    match asStr (jfield fs "type") with
    | some "setup" =>
      match asStr (jfield fs "voice_id"), asStr (jfield fs "output_format"),
          asStr (jfield fs "model_name") with
      | some v, some f, some mn =>
          some (.setup v f mn (jfield fs "json_config"))
      | _, _, _ => none
    | some "text" => (asStr (jfield fs "text")).map TTSClientMessage.text
    | some "end_of_stream" => some .endOfStream
    | _ => none
  | _ => none

/-- The local not-ready contract violation thrown by `sendText`/`sendAudio`
(a `WebSocketError` with no code). -/
def notReadyError : GradiumError :=
  .webSocket "Stream is not ready. Call waitReady() first." none

/-- Operation `TTSStream.sendText`: a synchronous local throw when `!this.isReady`,
otherwise the envelope written to the channel. -/
def TTSStream.sendText (s : TTSStreamState) (text : String) :
    Except GradiumError TTSClientMessage :=
  if s.isReady then .ok (.text text) else .error notReadyError

/-! ## STT wire messages and stream state (`src/types.ts`, `src/resources/stt.ts`)

Wire fields of JavaScript `number` type that carry fractional values
(`start_s`, VAD horizons/probabilities, durations) are modelled as `Rat`;
no claim computes with them. -/

/-- Type `STTReadyMessage` (without its literal `type` tag). -/
structure STTReadyMessage where
  request_id : String
  model_name : String
  sample_rate : Nat
  frame_size : Nat
  delay_in_tokens : Nat
  text_stream_names : List String
deriving DecidableEq

/-- Type `STTTextMessage` (without its literal `type` tag). -/
structure STTTextMessage where
  text : String
  start_s : Rat
  stream_id : Option Int
deriving DecidableEq

/-- Type `VADPrediction`. -/
structure VADPrediction where
  horizon_s : Rat
  inactivity_prob : Rat
deriving DecidableEq

/-- Type `STTStepMessage` (without its literal `type` tag). -/
structure STTStepMessage where
  vad : List VADPrediction
  step_idx : Nat
  step_duration_s : Rat
  total_duration_s : Rat
deriving DecidableEq

/-- Type `STTServerMessage`: the inbound envelopes of the STT direction.
`end_text` has no `switch` case in the handler (it is only queued). -/
inductive STTServerMessage where
  | ready (m : STTReadyMessage)
  | text (m : STTTextMessage)
  | step (m : STTStepMessage)
  | endText (stop_s : Rat) (stream_id : Option Int)
  | error (message : String) (code : Nat)
  | endOfStream
deriving DecidableEq

/-- The private mutable state of an `STTStream`: append-only `messageQueue`,
`textResults` and `vadResults` buffers, the ready metadata fields, and the
two promise cells. -/
structure STTStreamState where
  messageQueue : List STTServerMessage
  textResults : List STTTextMessage
  vadResults : List STTStepMessage
  requestId : String
  sampleRate : Nat
  frameSize : Nat
  isReady : Bool
  readyState : Option (Except GradiumError STTReadyMessage)
  endState : Option (Except GradiumError Unit)
deriving DecidableEq

/-- An `STTStream` right after its constructor ran (`sampleRate = 24_000`,
`frameSize = 1920` defaults). -/
def STTStream.init : STTStreamState :=
  { messageQueue := [], textResults := [], vadResults := [], requestId := "",
    sampleRate := 24000, frameSize := 1920, isReady := false,
    readyState := none, endState := none }

/-- One `ws.onmessage` event for the STT direction, abstracted past
`JSON.parse`. -/
inductive STTInbound where
  | msg (m : STTServerMessage)
  | malformed (errMessage : String)
deriving DecidableEq

/-- The `onmessage` callback installed by `STTStream.setupMessageHandler`,
as a state step. On parse failure only `endReject` runs. On `ready` the
stream unconditionally records `request_id`/`sample_rate`/`frame_size`,
flips `isReady` and resolves the ready cell with the whole message. `text`
and `step` are appended to their buffers; `end_text` has no case. On
`error` both cells are rejected with one `WebSocketError(message, code)`.
Every parsed message is appended to `messageQueue` before the `switch`. -/
def STTStream.onmessage (s : STTStreamState) : STTInbound → STTStreamState
  | .malformed em =>
      { s with endState := settleOnce s.endState (.error (.jsError em)) }
  | .msg m =>
    let s1 := { s with messageQueue := s.messageQueue ++ [m] }
    match m with
    | .ready r =>
        { s1 with requestId := r.request_id, sampleRate := r.sample_rate,
                  frameSize := r.frame_size, isReady := true,
                  readyState := settleOnce s1.readyState (.ok r) }
    | .text t => { s1 with textResults := s1.textResults ++ [t] }
    | .step v => { s1 with vadResults := s1.vadResults ++ [v] }
    | .endText _ _ => s1
    | .endOfStream =>
        { s1 with endState := settleOnce s1.endState (.ok ()) }
    | .error emsg code =>
        let e : GradiumError := .webSocket emsg (some code)
        { s1 with readyState := settleOnce s1.readyState (.error e),
                  endState := settleOnce s1.endState (.error e) }

/-- Deliver a list of inbound events to an STT stream state, in order. -/
def STTStream.run (s : STTStreamState) (evs : List STTInbound) : STTStreamState :=
  evs.foldl STTStream.onmessage s

/-- The state of a fresh STT stream after a whole inbound sequence. -/
def STTStream.processAll (evs : List STTInbound) : STTStreamState :=
  STTStream.run STTStream.init evs

/-- Operation `waitReady()` returns `this.readyPromise`; a resolution carries the full
`STTReadyMessage`. Every caller observes the one cell. -/
def STTStream.waitReady (s : STTStreamState) :
    Option (Except GradiumError STTReadyMessage) :=
  s.readyState

/-- Operation `collectText()`: awaits `endPromise`, then
`textResults.map(t => t.text).join(" ")`. -/
def STTStream.collectText (s : STTStreamState) :
    Option (Except GradiumError String) :=
  match s.endState with
  | none => none
  | some (.error e) => some (.error e)
  | some (.ok _) =>
      some (.ok (String.intercalate " " (s.textResults.map (·.text))))

/-- Test `msg.type === "end_of_stream" || msg.type === "error"`. -/
def sttTerminalMsg : STTServerMessage → Bool
  | .endOfStream => true
  | .error _ _ => true
  | _ => false

/-- Test `message.type !== "ready"` (the filter inside `iter()`). -/
def sttNonReadyMsg : STTServerMessage → Bool
  | .ready _ => false
  | _ => true

/-- The termination test of the STT iterator loops. -/
def STTStreamState.hasEnded (s : STTStreamState) : Bool :=
  s.messageQueue.any sttTerminalMsg

/-- Operation `iterText()` evaluated against a quiescent state: once a terminal
message is in the queue it yields the remaining buffered text results and
breaks. No `throw` exists in the generator body, so a terminating iteration
always ends without a failure. -/
def STTStream.iterText (s : STTStreamState) :
    Option (List STTTextMessage × Option GradiumError) :=
  if s.hasEnded then some (s.textResults, none) else none

/-- Operation `iterVAD()` evaluated against a quiescent state (same loop over
`vadResults`). -/
def STTStream.iterVAD (s : STTStreamState) :
    Option (List STTStepMessage × Option GradiumError) :=
  if s.hasEnded then some (s.vadResults, none) else none

/-- Operation `iter()` evaluated against a quiescent state: yields every queued
message except `ready` ones, then breaks on the terminal test. -/
def STTStream.iter (s : STTStreamState) :
    Option (List STTServerMessage × Option GradiumError) :=
  if s.hasEnded then some (s.messageQueue.filter sttNonReadyMsg, none)
  else none

/-- Type `STTClientMessage`: `setup`, `audio` (base64 payload string, as the wire
type `STTAudioMessage` stores it), `end_of_stream`. -/
inductive STTClientMessage where
  | setup (model_name : String) (input_format : String)
  | audio (audio : String)
  | endOfStream
deriving DecidableEq

/-- Codec encode for outbound STT envelopes (field order as written by
`STT.stream` / `sendAudio` / `sendEndOfStream`). -/
def STTClientMessage.encode : STTClientMessage → Json
  | .setup mn f =>
      .obj [("type", .str "setup"), ("input_format", .str f),
            ("model_name", .str mn)]
  | .audio a => .obj [("type", .str "audio"), ("audio", .str a)]
  | .endOfStream => .obj [("type", .str "end_of_stream")]

/-- Codec decode for outbound STT envelopes. -/
def STTClientMessage.decode : Json → Option STTClientMessage
  | .obj fs =>
    match asStr (jfield fs "type") with
    | some "setup" =>
      match asStr (jfield fs "model_name"), asStr (jfield fs "input_format") with
      | some mn, some f => some (.setup mn f)
      | _, _ => none
    | some "audio" => (asStr (jfield fs "audio")).map STTClientMessage.audio
    | some "end_of_stream" => some .endOfStream
    | _ => none
  | _ => none

/-- Operation `STTStream.sendAudio`: a synchronous local throw when `!this.isReady`,
otherwise the `audio` envelope with the base64-encoded payload. -/
def STTStream.sendAudio (s : STTStreamState) (audio : List Nat) :
    Except GradiumError STTClientMessage :=
  if s.isReady then .ok (.audio (b64encode audio)) else .error notReadyError

/-- The envelopes `STT.transcribe` writes after `waitReady()` resolves: one
`audio` envelope per `chunkSize` slice, then one `end_of_stream`. -/
def STT.transcribeSends (audio : List Nat) : List STTClientMessage :=
  (chunksOf audio).map (fun c => .audio (b64encode c)) ++ [.endOfStream]

/-! ## Event classification and history projections (TTS) -/

/-- Events that settle the ready cell: `ready` (resolve) and `error`
(reject). -/
def ttsSettlesReady : TTSInbound → Bool
  | .msg (.ready _) => true
  | .msg (.error _ _) => true
  | _ => false

/-- Events that settle the end cell: parse failures, `end_of_stream`,
`error`, and `audio` whose payload makes `atob` throw. -/
def ttsSettlesEnd : TTSInbound → Bool
  | .malformed _ => true
  | .msg .endOfStream => true
  | .msg (.error _ _) => true
  | .msg (.audio b64) => (b64decode b64).isNone
  | _ => false

/-- The parsed messages of an inbound sequence, in order. -/
def ttsParsed (evs : List TTSInbound) : List TTSServerMessage :=
  evs.filterMap fun e =>
    match e with
    | .msg m => some m
    | .malformed _ => none

/-- The successfully decoded audio payloads of an inbound sequence, in
order. -/
def ttsDecodedAudio (evs : List TTSInbound) : List (List Nat) :=
  evs.filterMap fun e =>
    match e with
    | .msg (.audio b64) => b64decode b64
    | _ => none

/-- Whether the sequence contains a parsed `ready` envelope. -/
def ttsHasReady (evs : List TTSInbound) : Bool :=
  evs.any fun e =>
    match e with
    | .msg (.ready _) => true
    | _ => false

theorem ttsOnmessage_readyState_some (s : TTSStreamState) (e : TTSInbound)
    (v : Except GradiumError Unit) (h : s.readyState = some v) :
    (TTSStream.onmessage s e).readyState = some v := by
  cases e with
  | malformed em => simpa [TTSStream.onmessage] using h
  | msg m =>
    cases m with
    | ready rid => simp [TTSStream.onmessage, h, settleOnce]
    | audio b64 =>
        cases hd : b64decode b64 <;> simp [TTSStream.onmessage, hd, h]
    | error emsg code => simp [TTSStream.onmessage, h, settleOnce]
    | endOfStream => simp [TTSStream.onmessage, h]

theorem ttsRun_readyState_some (evs : List TTSInbound) (s : TTSStreamState)
    (v : Except GradiumError Unit) (h : s.readyState = some v) :
    (TTSStream.run s evs).readyState = some v := by
  induction evs generalizing s with
  | nil => simpa [TTSStream.run] using h
  | cons e rest ih =>
      simp only [TTSStream.run, List.foldl_cons] at *
      exact ih _ (ttsOnmessage_readyState_some s e v h)

theorem ttsOnmessage_endState_some (s : TTSStreamState) (e : TTSInbound)
    (v : Except GradiumError Unit) (h : s.endState = some v) :
    (TTSStream.onmessage s e).endState = some v := by
  cases e with
  | malformed em => simp [TTSStream.onmessage, h, settleOnce]
  | msg m =>
    cases m with
    | ready rid => simp [TTSStream.onmessage, h]
    | audio b64 =>
        cases hd : b64decode b64 <;>
          simp [TTSStream.onmessage, hd, h, settleOnce]
    | error emsg code => simp [TTSStream.onmessage, h, settleOnce]
    | endOfStream => simp [TTSStream.onmessage, h, settleOnce]

theorem ttsRun_endState_some (evs : List TTSInbound) (s : TTSStreamState)
    (v : Except GradiumError Unit) (h : s.endState = some v) :
    (TTSStream.run s evs).endState = some v := by
  induction evs generalizing s with
  | nil => simpa [TTSStream.run] using h
  | cons e rest ih =>
      simp only [TTSStream.run, List.foldl_cons] at *
      exact ih _ (ttsOnmessage_endState_some s e v h)

theorem ttsOnmessage_readyState_skip (s : TTSStreamState) (e : TTSInbound)
    (h : ttsSettlesReady e = false) :
    (TTSStream.onmessage s e).readyState = s.readyState := by
  cases e with
  | malformed em => simp [TTSStream.onmessage]
  | msg m =>
    cases m with
    | ready rid => simp [ttsSettlesReady] at h
    | audio b64 => cases hd : b64decode b64 <;> simp [TTSStream.onmessage, hd]
    | error emsg code => simp [ttsSettlesReady] at h
    | endOfStream => simp [TTSStream.onmessage]

theorem ttsRun_readyState_skip (evs : List TTSInbound) (s : TTSStreamState)
    (h : ∀ e ∈ evs, ttsSettlesReady e = false) :
    (TTSStream.run s evs).readyState = s.readyState := by
  induction evs generalizing s with
  | nil => simp [TTSStream.run]
  | cons e rest ih =>
      simp only [TTSStream.run, List.foldl_cons] at *
      rw [ih _ fun x hx => h x (List.mem_cons_of_mem e hx)]
      exact ttsOnmessage_readyState_skip s e (h e (List.mem_cons_self e rest))

theorem ttsOnmessage_endState_skip (s : TTSStreamState) (e : TTSInbound)
    (h : ttsSettlesEnd e = false) :
    (TTSStream.onmessage s e).endState = s.endState := by
  cases e with
  | malformed em => simp [ttsSettlesEnd] at h
  | msg m =>
    cases m with
    | ready rid => simp [TTSStream.onmessage]
    | audio b64 =>
        simp only [ttsSettlesEnd, Option.isNone_eq_false_iff,
          Option.isSome_iff_exists] at h
        obtain ⟨bytes, hd⟩ := h
        simp [TTSStream.onmessage, hd]
    | error emsg code => simp [ttsSettlesEnd] at h
    | endOfStream => simp [ttsSettlesEnd] at h

theorem ttsRun_endState_skip (evs : List TTSInbound) (s : TTSStreamState)
    (h : ∀ e ∈ evs, ttsSettlesEnd e = false) :
    (TTSStream.run s evs).endState = s.endState := by
  induction evs generalizing s with
  | nil => simp [TTSStream.run]
  | cons e rest ih =>
      simp only [TTSStream.run, List.foldl_cons] at *
      rw [ih _ fun x hx => h x (List.mem_cons_of_mem e hx)]
      exact ttsOnmessage_endState_skip s e (h e (List.mem_cons_self e rest))

theorem ttsRun_append (s : TTSStreamState) (l1 l2 : List TTSInbound) :
    TTSStream.run s (l1 ++ l2) = TTSStream.run (TTSStream.run s l1) l2 := by
  simp [TTSStream.run, List.foldl_append]

theorem ttsRun_audioChunks (evs : List TTSInbound) (s : TTSStreamState) :
    (TTSStream.run s evs).audioChunks = s.audioChunks ++ ttsDecodedAudio evs := by
  induction evs generalizing s with
  | nil => simp [TTSStream.run, ttsDecodedAudio]
  | cons e rest ih =>
      simp only [TTSStream.run, List.foldl_cons] at *
      rw [ih]
      cases e with
      | malformed em =>
          simp [TTSStream.onmessage, ttsDecodedAudio, List.filterMap_cons]
      | msg m =>
        cases m with
        | ready rid =>
            simp [TTSStream.onmessage, ttsDecodedAudio, List.filterMap_cons]
        | audio b64 =>
            cases hd : b64decode b64 <;>
              simp [TTSStream.onmessage, hd, ttsDecodedAudio,
                List.filterMap_cons]
        | error emsg code =>
            simp [TTSStream.onmessage, ttsDecodedAudio, List.filterMap_cons]
        | endOfStream =>
            simp [TTSStream.onmessage, ttsDecodedAudio, List.filterMap_cons]

theorem ttsRun_messageQueue (evs : List TTSInbound) (s : TTSStreamState) :
    (TTSStream.run s evs).messageQueue = s.messageQueue ++ ttsParsed evs := by
  induction evs generalizing s with
  | nil => simp [TTSStream.run, ttsParsed]
  | cons e rest ih =>
      simp only [TTSStream.run, List.foldl_cons] at *
      rw [ih]
      cases e with
      | malformed em =>
          simp [TTSStream.onmessage, ttsParsed, List.filterMap_cons]
      | msg m =>
        cases m with
        | ready rid =>
            simp [TTSStream.onmessage, ttsParsed, List.filterMap_cons]
        | audio b64 =>
            cases hd : b64decode b64 <;>
              simp [TTSStream.onmessage, hd, ttsParsed, List.filterMap_cons]
        | error emsg code =>
            simp [TTSStream.onmessage, ttsParsed, List.filterMap_cons]
        | endOfStream =>
            simp [TTSStream.onmessage, ttsParsed, List.filterMap_cons]

theorem ttsRun_isReady (evs : List TTSInbound) (s : TTSStreamState) :
    (TTSStream.run s evs).isReady = (s.isReady || ttsHasReady evs) := by
  induction evs generalizing s with
  | nil => simp [TTSStream.run, ttsHasReady]
  | cons e rest ih =>
      simp only [TTSStream.run, List.foldl_cons] at *
      rw [ih]
      cases e with
      | malformed em => simp [TTSStream.onmessage, ttsHasReady]
      | msg m =>
        cases m with
        | ready rid => simp [TTSStream.onmessage, ttsHasReady]
        | audio b64 =>
            cases hd : b64decode b64 <;>
              simp [TTSStream.onmessage, hd, ttsHasReady]
        | error emsg code => simp [TTSStream.onmessage, ttsHasReady]
        | endOfStream => simp [TTSStream.onmessage, ttsHasReady]

/-! ## Event classification and history projections (STT) -/

/-- Events that settle the STT ready cell. -/
def sttSettlesReady : STTInbound → Bool
  | .msg (.ready _) => true
  | .msg (.error _ _) => true
  | _ => false

/-- Events that settle the STT end cell (no decode happens on inbound STT
payloads, so only parse failures, `end_of_stream` and `error`). -/
def sttSettlesEnd : STTInbound → Bool
  | .malformed _ => true
  | .msg .endOfStream => true
  | .msg (.error _ _) => true
  | _ => false

/-- The parsed messages of an STT inbound sequence, in order. -/
def sttParsed (evs : List STTInbound) : List STTServerMessage :=
  evs.filterMap fun e =>
    match e with
    | .msg m => some m
    | .malformed _ => none

/-- The text results of an STT inbound sequence, in order. -/
def sttTexts (evs : List STTInbound) : List STTTextMessage :=
  evs.filterMap fun e =>
    match e with
    | .msg (.text t) => some t
    | _ => none

/-- The step (VAD) results of an STT inbound sequence, in order. -/
def sttSteps (evs : List STTInbound) : List STTStepMessage :=
  evs.filterMap fun e =>
    match e with
    | .msg (.step v) => some v
    | _ => none

/-- Whether the sequence contains a parsed `ready` envelope. -/
def sttHasReady (evs : List STTInbound) : Bool :=
  evs.any fun e =>
    match e with
    | .msg (.ready _) => true
    | _ => false

theorem sttOnmessage_readyState_some (s : STTStreamState) (e : STTInbound)
    (v : Except GradiumError STTReadyMessage) (h : s.readyState = some v) :
    (STTStream.onmessage s e).readyState = some v := by
  cases e with
  | malformed em => simpa [STTStream.onmessage] using h
  | msg m =>
    cases m with
    | ready r => simp [STTStream.onmessage, h, settleOnce]
    | text t => simp [STTStream.onmessage, h]
    | step v2 => simp [STTStream.onmessage, h]
    | endText a b => simp [STTStream.onmessage, h]
    | error emsg code => simp [STTStream.onmessage, h, settleOnce]
    | endOfStream => simp [STTStream.onmessage, h]

theorem sttRun_readyState_some (evs : List STTInbound) (s : STTStreamState)
    (v : Except GradiumError STTReadyMessage) (h : s.readyState = some v) :
    (STTStream.run s evs).readyState = some v := by
  induction evs generalizing s with
  | nil => simpa [STTStream.run] using h
  | cons e rest ih =>
      simp only [STTStream.run, List.foldl_cons] at *
      exact ih _ (sttOnmessage_readyState_some s e v h)

theorem sttOnmessage_endState_some (s : STTStreamState) (e : STTInbound)
    (v : Except GradiumError Unit) (h : s.endState = some v) :
    (STTStream.onmessage s e).endState = some v := by
  cases e with
  | malformed em => simp [STTStream.onmessage, h, settleOnce]
  | msg m =>
    cases m with
    | ready r => simp [STTStream.onmessage, h]
    | text t => simp [STTStream.onmessage, h]
    | step v2 => simp [STTStream.onmessage, h]
    | endText a b => simp [STTStream.onmessage, h]
    | error emsg code => simp [STTStream.onmessage, h, settleOnce]
    | endOfStream => simp [STTStream.onmessage, h, settleOnce]

theorem sttRun_endState_some (evs : List STTInbound) (s : STTStreamState)
    (v : Except GradiumError Unit) (h : s.endState = some v) :
    (STTStream.run s evs).endState = some v := by
  induction evs generalizing s with
  | nil => simpa [STTStream.run] using h
  | cons e rest ih =>
      simp only [STTStream.run, List.foldl_cons] at *
      exact ih _ (sttOnmessage_endState_some s e v h)

theorem sttOnmessage_readyState_skip (s : STTStreamState) (e : STTInbound)
    (h : sttSettlesReady e = false) :
    (STTStream.onmessage s e).readyState = s.readyState := by
  cases e with
  | malformed em => simp [STTStream.onmessage]
  | msg m =>
    cases m with
    | ready r => simp [sttSettlesReady] at h
    | text t => simp [STTStream.onmessage]
    | step v2 => simp [STTStream.onmessage]
    | endText a b => simp [STTStream.onmessage]
    | error emsg code => simp [sttSettlesReady] at h
    | endOfStream => simp [STTStream.onmessage]

theorem sttRun_readyState_skip (evs : List STTInbound) (s : STTStreamState)
    (h : ∀ e ∈ evs, sttSettlesReady e = false) :
    (STTStream.run s evs).readyState = s.readyState := by
  induction evs generalizing s with
  | nil => simp [STTStream.run]
  | cons e rest ih =>
      simp only [STTStream.run, List.foldl_cons] at *
      rw [ih _ fun x hx => h x (List.mem_cons_of_mem e hx)]
      exact sttOnmessage_readyState_skip s e (h e (List.mem_cons_self e rest))

theorem sttOnmessage_endState_skip (s : STTStreamState) (e : STTInbound)
    (h : sttSettlesEnd e = false) :
    (STTStream.onmessage s e).endState = s.endState := by
  cases e with
  | malformed em => simp [sttSettlesEnd] at h
  | msg m =>
    cases m with
    | ready r => simp [STTStream.onmessage]
    | text t => simp [STTStream.onmessage]
    | step v2 => simp [STTStream.onmessage]
    | endText a b => simp [STTStream.onmessage]
    | error emsg code => simp [sttSettlesEnd] at h
    | endOfStream => simp [sttSettlesEnd] at h

theorem sttRun_endState_skip (evs : List STTInbound) (s : STTStreamState)
    (h : ∀ e ∈ evs, sttSettlesEnd e = false) :
    (STTStream.run s evs).endState = s.endState := by
  induction evs generalizing s with
  | nil => simp [STTStream.run]
  | cons e rest ih =>
      simp only [STTStream.run, List.foldl_cons] at *
      rw [ih _ fun x hx => h x (List.mem_cons_of_mem e hx)]
      exact sttOnmessage_endState_skip s e (h e (List.mem_cons_self e rest))

theorem sttRun_append (s : STTStreamState) (l1 l2 : List STTInbound) :
    STTStream.run s (l1 ++ l2) = STTStream.run (STTStream.run s l1) l2 := by
  simp [STTStream.run, List.foldl_append]

theorem sttRun_textResults (evs : List STTInbound) (s : STTStreamState) :
    (STTStream.run s evs).textResults = s.textResults ++ sttTexts evs := by
  induction evs generalizing s with
  | nil => simp [STTStream.run, sttTexts]
  | cons e rest ih =>
      simp only [STTStream.run, List.foldl_cons] at *
      rw [ih]
      cases e with
      | malformed em => simp [STTStream.onmessage, sttTexts, List.filterMap_cons]
      | msg m =>
        cases m <;> simp [STTStream.onmessage, sttTexts, List.filterMap_cons]

theorem sttRun_vadResults (evs : List STTInbound) (s : STTStreamState) :
    (STTStream.run s evs).vadResults = s.vadResults ++ sttSteps evs := by
  induction evs generalizing s with
  | nil => simp [STTStream.run, sttSteps]
  | cons e rest ih =>
      simp only [STTStream.run, List.foldl_cons] at *
      rw [ih]
      cases e with
      | malformed em => simp [STTStream.onmessage, sttSteps, List.filterMap_cons]
      | msg m =>
        cases m <;> simp [STTStream.onmessage, sttSteps, List.filterMap_cons]

theorem sttRun_messageQueue (evs : List STTInbound) (s : STTStreamState) :
    (STTStream.run s evs).messageQueue = s.messageQueue ++ sttParsed evs := by
  induction evs generalizing s with
  | nil => simp [STTStream.run, sttParsed]
  | cons e rest ih =>
      simp only [STTStream.run, List.foldl_cons] at *
      rw [ih]
      cases e with
      | malformed em => simp [STTStream.onmessage, sttParsed, List.filterMap_cons]
      | msg m =>
        cases m <;> simp [STTStream.onmessage, sttParsed, List.filterMap_cons]

theorem sttRun_isReady (evs : List STTInbound) (s : STTStreamState) :
    (STTStream.run s evs).isReady = (s.isReady || sttHasReady evs) := by
  induction evs generalizing s with
  | nil => simp [STTStream.run, sttHasReady]
  | cons e rest ih =>
      simp only [STTStream.run, List.foldl_cons] at *
      rw [ih]
      cases e with
      | malformed em => simp [STTStream.onmessage, sttHasReady]
      | msg m =>
        cases m <;> simp [STTStream.onmessage, sttHasReady]

/-! ## Process-level settlement lemmas -/

theorem ttsProcess_error_endState (pre post : List TTSInbound)
    (emsg : String) (code : Nat) (h : ∀ e ∈ pre, ttsSettlesEnd e = false) :
    (TTSStream.processAll (pre ++ .msg (.error emsg code) :: post)).endState
      = some (.error (.webSocket emsg (some code))) := by
  have h1 : (TTSStream.run TTSStream.init pre).endState = none := by
    rw [ttsRun_endState_skip pre _ h]; rfl
  have hsplit : pre ++ TTSInbound.msg (.error emsg code) :: post
      = (pre ++ [TTSInbound.msg (.error emsg code)]) ++ post := by simp
  rw [TTSStream.processAll, hsplit, ttsRun_append, ttsRun_append]
  refine ttsRun_endState_some post _ _ ?_
  show (TTSStream.onmessage (TTSStream.run TTSStream.init pre)
    (.msg (.error emsg code))).endState = _
  simp [TTSStream.onmessage, h1, settleOnce]

theorem ttsProcess_error_readyState (pre post : List TTSInbound)
    (emsg : String) (code : Nat) (h : ∀ e ∈ pre, ttsSettlesReady e = false) :
    (TTSStream.processAll (pre ++ .msg (.error emsg code) :: post)).readyState
      = some (.error (.webSocket emsg (some code))) := by
  have h1 : (TTSStream.run TTSStream.init pre).readyState = none := by
    rw [ttsRun_readyState_skip pre _ h]; rfl
  have hsplit : pre ++ TTSInbound.msg (.error emsg code) :: post
      = (pre ++ [TTSInbound.msg (.error emsg code)]) ++ post := by simp
  rw [TTSStream.processAll, hsplit, ttsRun_append, ttsRun_append]
  refine ttsRun_readyState_some post _ _ ?_
  show (TTSStream.onmessage (TTSStream.run TTSStream.init pre)
    (.msg (.error emsg code))).readyState = _
  simp [TTSStream.onmessage, h1, settleOnce]

theorem ttsProcess_ready_readyState (pre post : List TTSInbound)
    (rid : String) (h : ∀ e ∈ pre, ttsSettlesReady e = false) :
    (TTSStream.processAll (pre ++ .msg (.ready rid) :: post)).readyState
      = some (.ok ()) := by
  have h1 : (TTSStream.run TTSStream.init pre).readyState = none := by
    rw [ttsRun_readyState_skip pre _ h]; rfl
  have hsplit : pre ++ TTSInbound.msg (.ready rid) :: post
      = (pre ++ [TTSInbound.msg (.ready rid)]) ++ post := by simp
  rw [TTSStream.processAll, hsplit, ttsRun_append, ttsRun_append]
  refine ttsRun_readyState_some post _ _ ?_
  show (TTSStream.onmessage (TTSStream.run TTSStream.init pre)
    (.msg (.ready rid))).readyState = _
  simp [TTSStream.onmessage, h1, settleOnce]

theorem ttsProcess_eos_endState (pre post : List TTSInbound)
    (h : ∀ e ∈ pre, ttsSettlesEnd e = false) :
    (TTSStream.processAll (pre ++ .msg .endOfStream :: post)).endState
      = some (.ok ()) := by
  have h1 : (TTSStream.run TTSStream.init pre).endState = none := by
    rw [ttsRun_endState_skip pre _ h]; rfl
  have hsplit : pre ++ TTSInbound.msg .endOfStream :: post
      = (pre ++ [TTSInbound.msg .endOfStream]) ++ post := by simp
  rw [TTSStream.processAll, hsplit, ttsRun_append, ttsRun_append]
  refine ttsRun_endState_some post _ _ ?_
  show (TTSStream.onmessage (TTSStream.run TTSStream.init pre)
    (.msg .endOfStream)).endState = _
  simp [TTSStream.onmessage, h1, settleOnce]

theorem ttsProcess_malformed_endState (pre post : List TTSInbound)
    (em : String) (h : ∀ e ∈ pre, ttsSettlesEnd e = false) :
    (TTSStream.processAll (pre ++ .malformed em :: post)).endState
      = some (.error (.jsError em)) := by
  have h1 : (TTSStream.run TTSStream.init pre).endState = none := by
    rw [ttsRun_endState_skip pre _ h]; rfl
  have hsplit : pre ++ TTSInbound.malformed em :: post
      = (pre ++ [TTSInbound.malformed em]) ++ post := by simp
  rw [TTSStream.processAll, hsplit, ttsRun_append, ttsRun_append]
  refine ttsRun_endState_some post _ _ ?_
  show (TTSStream.onmessage (TTSStream.run TTSStream.init pre)
    (.malformed em)).endState = _
  simp [TTSStream.onmessage, h1, settleOnce]

theorem sttProcess_error_endState (pre post : List STTInbound)
    (emsg : String) (code : Nat) (h : ∀ e ∈ pre, sttSettlesEnd e = false) :
    (STTStream.processAll (pre ++ .msg (.error emsg code) :: post)).endState
      = some (.error (.webSocket emsg (some code))) := by
  have h1 : (STTStream.run STTStream.init pre).endState = none := by
    rw [sttRun_endState_skip pre _ h]; rfl
  have hsplit : pre ++ STTInbound.msg (.error emsg code) :: post
      = (pre ++ [STTInbound.msg (.error emsg code)]) ++ post := by simp
  rw [STTStream.processAll, hsplit, sttRun_append, sttRun_append]
  refine sttRun_endState_some post _ _ ?_
  show (STTStream.onmessage (STTStream.run STTStream.init pre)
    (.msg (.error emsg code))).endState = _
  simp [STTStream.onmessage, h1, settleOnce]

theorem sttProcess_error_readyState (pre post : List STTInbound)
    (emsg : String) (code : Nat) (h : ∀ e ∈ pre, sttSettlesReady e = false) :
    (STTStream.processAll (pre ++ .msg (.error emsg code) :: post)).readyState
      = some (.error (.webSocket emsg (some code))) := by
  have h1 : (STTStream.run STTStream.init pre).readyState = none := by
    rw [sttRun_readyState_skip pre _ h]; rfl
  have hsplit : pre ++ STTInbound.msg (.error emsg code) :: post
      = (pre ++ [STTInbound.msg (.error emsg code)]) ++ post := by simp
  rw [STTStream.processAll, hsplit, sttRun_append, sttRun_append]
  refine sttRun_readyState_some post _ _ ?_
  show (STTStream.onmessage (STTStream.run STTStream.init pre)
    (.msg (.error emsg code))).readyState = _
  simp [STTStream.onmessage, h1, settleOnce]

theorem sttProcess_ready_readyState (pre post : List STTInbound)
    (r : STTReadyMessage) (h : ∀ e ∈ pre, sttSettlesReady e = false) :
    (STTStream.processAll (pre ++ .msg (.ready r) :: post)).readyState
      = some (.ok r) := by
  have h1 : (STTStream.run STTStream.init pre).readyState = none := by
    rw [sttRun_readyState_skip pre _ h]; rfl
  have hsplit : pre ++ STTInbound.msg (.ready r) :: post
      = (pre ++ [STTInbound.msg (.ready r)]) ++ post := by simp
  rw [STTStream.processAll, hsplit, sttRun_append, sttRun_append]
  refine sttRun_readyState_some post _ _ ?_
  show (STTStream.onmessage (STTStream.run STTStream.init pre)
    (.msg (.ready r))).readyState = _
  simp [STTStream.onmessage, h1, settleOnce]

theorem sttProcess_eos_endState (pre post : List STTInbound)
    (h : ∀ e ∈ pre, sttSettlesEnd e = false) :
    (STTStream.processAll (pre ++ .msg .endOfStream :: post)).endState
      = some (.ok ()) := by
  have h1 : (STTStream.run STTStream.init pre).endState = none := by
    rw [sttRun_endState_skip pre _ h]; rfl
  have hsplit : pre ++ STTInbound.msg .endOfStream :: post
      = (pre ++ [STTInbound.msg .endOfStream]) ++ post := by simp
  rw [STTStream.processAll, hsplit, sttRun_append, sttRun_append]
  refine sttRun_endState_some post _ _ ?_
  show (STTStream.onmessage (STTStream.run STTStream.init pre)
    (.msg .endOfStream)).endState = _
  simp [STTStream.onmessage, h1, settleOnce]

theorem sttProcess_malformed_endState (pre post : List STTInbound)
    (em : String) (h : ∀ e ∈ pre, sttSettlesEnd e = false) :
    (STTStream.processAll (pre ++ .malformed em :: post)).endState
      = some (.error (.jsError em)) := by
  have h1 : (STTStream.run STTStream.init pre).endState = none := by
    rw [sttRun_endState_skip pre _ h]; rfl
  have hsplit : pre ++ STTInbound.malformed em :: post
      = (pre ++ [STTInbound.malformed em]) ++ post := by simp
  rw [STTStream.processAll, hsplit, sttRun_append, sttRun_append]
  refine sttRun_endState_some post _ _ ?_
  show (STTStream.onmessage (STTStream.run STTStream.init pre)
    (.malformed em)).endState = _
  simp [STTStream.onmessage, h1, settleOnce]

theorem TTSStream.collect_ok (s : TTSStreamState)
    (h : s.endState = some (.ok ())) :
    TTSStream.collect s =
      some (.ok { raw_data := s.audioChunks.flatten,
                  sample_rate := TTSStream.sampleRate,
                  request_id := s.requestId }) := by
  simp [TTSStream.collect, h]

theorem TTSStream.collect_pending (s : TTSStreamState) (h : s.endState = none) :
    TTSStream.collect s = none := by
  simp [TTSStream.collect, h]

theorem STTStream.collectText_ok (s : STTStreamState)
    (h : s.endState = some (.ok ())) :
    STTStream.collectText s =
      some (.ok (String.intercalate " " (s.textResults.map (·.text)))) := by
  simp [STTStream.collectText, h]

theorem STTStream.collectText_pending (s : STTStreamState)
    (h : s.endState = none) :
    STTStream.collectText s = none := by
  simp [STTStream.collectText, h]

theorem ttsDecodedAudio_append (l1 l2 : List TTSInbound) :
    ttsDecodedAudio (l1 ++ l2) = ttsDecodedAudio l1 ++ ttsDecodedAudio l2 := by
  simp [ttsDecodedAudio, List.filterMap_append]

theorem sttTexts_append (l1 l2 : List STTInbound) :
    sttTexts (l1 ++ l2) = sttTexts l1 ++ sttTexts l2 := by
  simp [sttTexts, List.filterMap_append]

theorem sttTexts_of_texts (ts : List STTTextMessage) :
    sttTexts (ts.map fun t => .msg (.text t)) = ts := by
  induction ts with
  | nil => rfl
  | cons t rest ih =>
      simp only [List.map_cons, sttTexts, List.filterMap_cons] at *
      rw [ih]

theorem ttsProcess_hasEnded (evs : List TTSInbound) :
    (TTSStream.processAll evs).hasEnded = (ttsParsed evs).any ttsTerminalMsg := by
  rw [TTSStreamState.hasEnded, TTSStream.processAll, ttsRun_messageQueue]
  rfl

theorem sttProcess_hasEnded (evs : List STTInbound) :
    (STTStream.processAll evs).hasEnded = (sttParsed evs).any sttTerminalMsg := by
  rw [STTStreamState.hasEnded, STTStream.processAll, sttRun_messageQueue]
  rfl

/-! ## Claim theorems -/

/-- A concrete STT ready envelope (the one the test suite uses). -/
def sampleReady : STTReadyMessage :=
  { request_id := "req-123", model_name := "default", sample_rate := 24000,
    frame_size := 1920, delay_in_tokens := 3, text_stream_names := ["primary"] }

/-- A second concrete STT ready envelope with a different `request_id`. -/
def sampleReady2 : STTReadyMessage :=
  { request_id := "req-456", model_name := "default", sample_rate := 24000,
    frame_size := 1920, delay_in_tokens := 3, text_stream_names := ["primary"] }

/-- C1 counterexample: in the ready-then-error ordering the claim fails.
The error envelope is processed (every `collect()` call rejects with it),
yet every outstanding and future `waitReady()` call still resolves — the
`readyReject` performed by the error case is a no-op on the
already-resolved ready promise. The STT conjunct shows the same for
`STTStream`. -/
theorem C1_counterexample :
    TTSStream.waitReady (TTSStream.processAll
        [.msg (.ready "req-123"), .msg (.error "Voice not found" 404)]) =
      some (.ok ()) ∧
    TTSStream.collect (TTSStream.processAll
        [.msg (.ready "req-123"), .msg (.error "Voice not found" 404)]) =
      some (.error (.webSocket "Voice not found" (some 404))) ∧
    STTStream.waitReady (STTStream.processAll
        [.msg (.ready sampleReady), .msg (.error "Voice not found" 404)]) =
      some (.ok sampleReady) :=
  ⟨rfl, rfl, rfl⟩

/-- C1 (amended): once an `error` envelope with message `m` and code `c` is
processed, every outstanding and future `collect`/`collectText` call
rejects with `WebSocketError(m, c)` provided no earlier event had already
settled the end promise, and every outstanding and future `waitReady` call
rejects with the same error provided no earlier envelope had settled the
ready promise (error-before-ready ordering); a waiter settled earlier keeps
its original resolution (one-shot promises). The rejection persists across
arbitrary later inbound events. -/
theorem C1_error_rejects_waiters
    (preT postT : List TTSInbound) (preS postS : List STTInbound)
    (emsg : String) (code : Nat)
    (hTe : ∀ e ∈ preT, ttsSettlesEnd e = false)
    (hSe : ∀ e ∈ preS, sttSettlesEnd e = false) :
    TTSStream.collect
        (TTSStream.processAll (preT ++ .msg (.error emsg code) :: postT)) =
      some (.error (.webSocket emsg (some code))) ∧
    ((∀ e ∈ preT, ttsSettlesReady e = false) →
      TTSStream.waitReady
          (TTSStream.processAll (preT ++ .msg (.error emsg code) :: postT)) =
        some (.error (.webSocket emsg (some code)))) ∧
    STTStream.collectText
        (STTStream.processAll (preS ++ .msg (.error emsg code) :: postS)) =
      some (.error (.webSocket emsg (some code))) ∧
    ((∀ e ∈ preS, sttSettlesReady e = false) →
      STTStream.waitReady
          (STTStream.processAll (preS ++ .msg (.error emsg code) :: postS)) =
        some (.error (.webSocket emsg (some code)))) := by
  refine ⟨?_, ?_, ?_, ?_⟩
  · have hE := ttsProcess_error_endState preT postT emsg code hTe
    simp [TTSStream.collect, hE]
  · intro hr
    have hR := ttsProcess_error_readyState preT postT emsg code hr
    simpa [TTSStream.waitReady] using hR
  · have hE := sttProcess_error_endState preS postS emsg code hSe
    simp [STTStream.collectText, hE]
  · intro hr
    have hR := sttProcess_error_readyState preS postS emsg code hr
    simpa [STTStream.waitReady] using hR

/-- C1 witness: the amended statement at the error-before-ready ordering
with no prior traffic. -/
theorem C1_error_rejects_waiters_witness :
    TTSStream.collect
        (TTSStream.processAll [.msg (.error "Voice not found" 404)]) =
      some (.error (.webSocket "Voice not found" (some 404))) ∧
    TTSStream.waitReady
        (TTSStream.processAll [.msg (.error "Voice not found" 404)]) =
      some (.error (.webSocket "Voice not found" (some 404))) ∧
    STTStream.collectText
        (STTStream.processAll [.msg (.error "Voice not found" 404)]) =
      some (.error (.webSocket "Voice not found" (some 404))) ∧
    STTStream.waitReady
        (STTStream.processAll [.msg (.error "Voice not found" 404)]) =
      some (.error (.webSocket "Voice not found" (some 404))) := by
  have h := C1_error_rejects_waiters [] [] [] [] "Voice not found" 404
    (by simp) (by simp)
  exact ⟨h.1, h.2.1 (by simp), h.2.2.1, h.2.2.2 (by simp)⟩

/-- C2 counterexample: a sequence ending in a ready envelope whose metadata
is NOT what `waitReady()` resolves with — after `[ready req-123, ready
req-456]` every caller observes the first ready's metadata, not that of the
ready envelope the sequence ends in (the second `readyResolve` is a
no-op). -/
theorem C2_counterexample :
    STTStream.waitReady (STTStream.processAll
        [.msg (.ready sampleReady), .msg (.ready sampleReady2)]) =
      some (.ok sampleReady) ∧
    sampleReady ≠ sampleReady2 :=
  ⟨rfl, by decide⟩

/-- C2 (amended): for every inbound sequence containing a ready envelope
preceded by no other envelope that settles the ready promise (no earlier
`ready` or `error`), `waitReady()` resolves with exactly that envelope's
metadata — for STT the full ready message, for TTS the `void` resolution —
regardless of any later inbound events; every caller, whether it called
before or after the envelope arrived, observes this same single resolution
(all callers are handed the one `readyPromise` cell). -/
theorem C2_ready_resolution
    (preT postT : List TTSInbound) (preS postS : List STTInbound)
    (rid : String) (r : STTReadyMessage)
    (hT : ∀ e ∈ preT, ttsSettlesReady e = false)
    (hS : ∀ e ∈ preS, sttSettlesReady e = false) :
    TTSStream.waitReady
        (TTSStream.processAll (preT ++ .msg (.ready rid) :: postT)) =
      some (.ok ()) ∧
    STTStream.waitReady
        (STTStream.processAll (preS ++ .msg (.ready r) :: postS)) =
      some (.ok r) := by
  constructor
  · have hR := ttsProcess_ready_readyState preT postT rid hT
    simpa [TTSStream.waitReady] using hR
  · have hR := sttProcess_ready_readyState preS postS r hS
    simpa [STTStream.waitReady] using hR

/-- C2 witness: the amended statement at a bare ready envelope. -/
theorem C2_ready_resolution_witness :
    TTSStream.waitReady
        (TTSStream.processAll [.msg (.ready "req-123")]) = some (.ok ()) ∧
    STTStream.waitReady
        (STTStream.processAll [.msg (.ready sampleReady)]) =
      some (.ok sampleReady) :=
  C2_ready_resolution [] [] [] [] "req-123" sampleReady (by simp) (by simp)

/-- C3: a TTS session that receives audio chunks `A`, `B`, `C` (as base64
payloads) in that order followed by `end_of_stream` — possibly after some
ready envelopes — collects exactly the byte concatenation `A ++ B ++ C`;
an STT session that receives text fragments in order followed by
`end_of_stream` collects the fragments joined in arrival order with a
single space; and while no end-settling event has arrived, both
`collect()` and `collectText()` are still pending (they return only after
the terminal signal). -/
theorem C3_collect_aggregation
    (A B C : List Nat)
    (hA : ∀ b ∈ A, b < 256) (hB : ∀ b ∈ B, b < 256) (hC : ∀ b ∈ C, b < 256)
    (preT : List TTSInbound) (hpreT : ∀ e ∈ preT, ∃ rid, e = .msg (.ready rid))
    (ts : List STTTextMessage)
    (preS : List STTInbound) (hpreS : ∀ e ∈ preS, ∃ r, e = .msg (.ready r))
    (lT : List TTSInbound) (hlT : ∀ e ∈ lT, ttsSettlesEnd e = false)
    (lS : List STTInbound) (hlS : ∀ e ∈ lS, sttSettlesEnd e = false) :
    (∃ res : TTSResult,
      TTSStream.collect (TTSStream.processAll
          (preT ++ [.msg (.audio (b64encode A)), .msg (.audio (b64encode B)),
                    .msg (.audio (b64encode C)), .msg .endOfStream])) =
        some (.ok res) ∧
      res.raw_data = A ++ B ++ C) ∧
    STTStream.collectText (STTStream.processAll
        (preS ++ ts.map (fun t => .msg (.text t)) ++ [.msg .endOfStream])) =
      some (.ok (String.intercalate " " (ts.map (·.text)))) ∧
    TTSStream.collect (TTSStream.processAll lT) = none ∧
    STTStream.collectText (STTStream.processAll lS) = none := by
  refine ⟨?_, ?_, ?_, ?_⟩
  · have hdA : b64decode (b64encode A) = some A := b64_roundtrip A hA
    have hdB : b64decode (b64encode B) = some B := b64_roundtrip B hB
    have hdC : b64decode (b64encode C) = some C := b64_roundtrip C hC
    have hpre2 : ∀ e ∈ preT ++ [TTSInbound.msg (.audio (b64encode A)),
        .msg (.audio (b64encode B)), .msg (.audio (b64encode C))],
        ttsSettlesEnd e = false := by
      intro e he
      rcases List.mem_append.mp he with h1 | h2
      · obtain ⟨rid, rfl⟩ := hpreT e h1
        rfl
      · simp only [List.mem_cons, List.mem_singleton] at h2
        rcases h2 with rfl | rfl | rfl | h
        · simp [ttsSettlesEnd, hdA]
        · simp [ttsSettlesEnd, hdB]
        · simp [ttsSettlesEnd, hdC]
        · simp at h
    have hsplit : preT ++ [TTSInbound.msg (.audio (b64encode A)),
        .msg (.audio (b64encode B)), .msg (.audio (b64encode C)),
        .msg .endOfStream] =
        (preT ++ [TTSInbound.msg (.audio (b64encode A)),
          .msg (.audio (b64encode B)), .msg (.audio (b64encode C))]) ++
          TTSInbound.msg .endOfStream :: [] := by
      simp
    have hE : (TTSStream.processAll (preT ++
        [TTSInbound.msg (.audio (b64encode A)), .msg (.audio (b64encode B)),
         .msg (.audio (b64encode C)), .msg .endOfStream])).endState =
        some (.ok ()) := by
      rw [hsplit]
      exact ttsProcess_eos_endState _ [] hpre2
    have hpreAudio : ttsDecodedAudio preT = [] := by
      rw [ttsDecodedAudio, List.filterMap_eq_nil_iff]
      intro e he
      obtain ⟨rid, rfl⟩ := hpreT e he
      rfl
    have hchunks : (TTSStream.processAll (preT ++
        [TTSInbound.msg (.audio (b64encode A)), .msg (.audio (b64encode B)),
         .msg (.audio (b64encode C)), .msg .endOfStream])).audioChunks =
        [A, B, C] := by
      rw [TTSStream.processAll, ttsRun_audioChunks, ttsDecodedAudio_append,
        hpreAudio]
      simp [ttsDecodedAudio, List.filterMap_cons, hdA, hdB, hdC,
        TTSStream.init]
    refine ⟨_, TTSStream.collect_ok _ hE, ?_⟩
    simp [hchunks]
  · have hpre2 : ∀ e ∈ preS ++ ts.map (fun t => STTInbound.msg (.text t)),
        sttSettlesEnd e = false := by
      intro e he
      rcases List.mem_append.mp he with h1 | h2
      · obtain ⟨r, rfl⟩ := hpreS e h1
        rfl
      · obtain ⟨t, _, rfl⟩ := List.mem_map.mp h2
        rfl
    have hsplit : preS ++ ts.map (fun t => STTInbound.msg (.text t)) ++
        [STTInbound.msg .endOfStream] =
        (preS ++ ts.map (fun t => STTInbound.msg (.text t))) ++
          STTInbound.msg .endOfStream :: [] := by
      simp
    have hE : (STTStream.processAll (preS ++
        ts.map (fun t => STTInbound.msg (.text t)) ++
        [STTInbound.msg .endOfStream])).endState = some (.ok ()) := by
      rw [hsplit]
      exact sttProcess_eos_endState _ [] hpre2
    have hpreTexts : sttTexts preS = [] := by
      rw [sttTexts, List.filterMap_eq_nil_iff]
      intro e he
      obtain ⟨r, rfl⟩ := hpreS e he
      rfl
    have htexts : (STTStream.processAll (preS ++
        ts.map (fun t => STTInbound.msg (.text t)) ++
        [STTInbound.msg .endOfStream])).textResults = ts := by
      rw [STTStream.processAll, sttRun_textResults, sttTexts_append,
        sttTexts_append, hpreTexts, sttTexts_of_texts]
      simp [sttTexts, STTStream.init]
    rw [STTStream.collectText_ok _ hE, htexts]
  · have hE : (TTSStream.processAll lT).endState = none := by
      rw [TTSStream.processAll, ttsRun_endState_skip lT _ hlT]
      rfl
    simp [TTSStream.collect, hE]
  · have hE : (STTStream.processAll lS).endState = none := by
      rw [STTStream.processAll, sttRun_endState_skip lS _ hlS]
      rfl
    simp [STTStream.collectText, hE]

/-- C3 witness: the test-suite scenario — chunks `[1,2,3]`, `[4,5,6]`,
`[7]` then `end_of_stream` collect to `[1,2,3,4,5,6,7]`; fragments
`"Hello"`, `"world"` then `end_of_stream` collect to `"Hello world"`; both
calls pending on a ready-only history. -/
theorem C3_collect_aggregation_witness :
    (∃ res : TTSResult,
      TTSStream.collect (TTSStream.processAll
          [.msg (.ready "req-123"), .msg (.audio (b64encode [1, 2, 3])),
           .msg (.audio (b64encode [4, 5, 6])), .msg (.audio (b64encode [7])),
           .msg .endOfStream]) = some (.ok res) ∧
      res.raw_data = [1, 2, 3] ++ [4, 5, 6] ++ [7]) ∧
    STTStream.collectText (STTStream.processAll
        [.msg (.ready sampleReady),
         .msg (.text { text := "Hello", start_s := 0, stream_id := none }),
         .msg (.text { text := "world", start_s := 1/2, stream_id := none }),
         .msg .endOfStream]) = some (.ok "Hello world") ∧
    TTSStream.collect (TTSStream.processAll [.msg (.ready "req-123")]) = none ∧
    STTStream.collectText
        (STTStream.processAll [.msg (.ready sampleReady)]) = none := by
  have h := C3_collect_aggregation [1, 2, 3] [4, 5, 6] [7]
    (by decide) (by decide) (by decide)
    [.msg (.ready "req-123")] (by simp)
    [{ text := "Hello", start_s := 0, stream_id := none },
     { text := "world", start_s := 1/2, stream_id := none }]
    [.msg (.ready sampleReady)] (by exact fun e he => ⟨sampleReady, by simpa using he⟩)
    [.msg (.ready "req-123")] (by simp [ttsSettlesEnd])
    [.msg (.ready sampleReady)] (by simp [sttSettlesEnd])
  exact ⟨h.1, h.2.1, h.2.2.1, h.2.2.2⟩

/-- C4 counterexample: the terminal state is Failed (an error envelope was
received and the end promise is rejected), yet the iteration does not end
with a failure: it yields the buffered results and completes normally —
the generator breaks out of its loop on `error` exactly as on
`end_of_stream` and never throws. -/
theorem C4_counterexample :
    (STTStream.processAll [.msg (.error "boom" 500)]).endState =
      some (.error (.webSocket "boom" (some 500))) ∧
    STTStream.iterText (STTStream.processAll [.msg (.error "boom" 500)]) =
      some ([], none) ∧
    TTSStream.iterate (TTSStream.processAll [.msg (.error "boom" 500)]) =
      some ([], none) :=
  ⟨rfl, rfl, rfl⟩

/-- C4 (amended): whenever the inbound history contains a terminal envelope
(`end_of_stream` or `error`), each iterator yields exactly the matching
messages of the whole history, in arrival order, and then ends without
error — in the Failed case just as in the clean case; the terminal error is
not surfaced by iteration (only by the waiters). -/
theorem C4_iterator_termination (lT : List TTSInbound) (lS : List STTInbound)
    (hT : (ttsParsed lT).any ttsTerminalMsg = true)
    (hS : (sttParsed lS).any sttTerminalMsg = true) :
    TTSStream.iterate (TTSStream.processAll lT) =
      some (ttsDecodedAudio lT, none) ∧
    STTStream.iterText (STTStream.processAll lS) =
      some (sttTexts lS, none) ∧
    STTStream.iterVAD (STTStream.processAll lS) =
      some (sttSteps lS, none) ∧
    STTStream.iter (STTStream.processAll lS) =
      some ((sttParsed lS).filter sttNonReadyMsg, none) := by
  have h1 : (TTSStream.processAll lT).hasEnded = true := by
    rw [ttsProcess_hasEnded]; exact hT
  have h2 : (STTStream.processAll lS).hasEnded = true := by
    rw [sttProcess_hasEnded]; exact hS
  have hq : (STTStream.processAll lS).messageQueue = sttParsed lS := by
    rw [STTStream.processAll, sttRun_messageQueue]; rfl
  have ha : (TTSStream.processAll lT).audioChunks = ttsDecodedAudio lT := by
    rw [TTSStream.processAll, ttsRun_audioChunks]; rfl
  have ht : (STTStream.processAll lS).textResults = sttTexts lS := by
    rw [STTStream.processAll, sttRun_textResults]; rfl
  have hv : (STTStream.processAll lS).vadResults = sttSteps lS := by
    rw [STTStream.processAll, sttRun_vadResults]; rfl
  refine ⟨?_, ?_, ?_, ?_⟩
  · simp [TTSStream.iterate, h1, ha]
  · simp [STTStream.iterText, h2, ht]
  · simp [STTStream.iterVAD, h2, hv]
  · simp [STTStream.iter, h2, hq]

/-- C4 witness: the amended statement on a clean history (ready, one text
result, one step result, `end_of_stream`). -/
theorem C4_iterator_termination_witness :
    TTSStream.iterate (TTSStream.processAll
        [.msg (.ready "req-123"), .msg .endOfStream]) = some ([], none) ∧
    STTStream.iterText (STTStream.processAll
        [.msg (.ready sampleReady),
         .msg (.text { text := "Hello", start_s := 0, stream_id := none }),
         .msg .endOfStream]) =
      some ([{ text := "Hello", start_s := 0, stream_id := none }], none) := by
  have h1 := C4_iterator_termination
    [.msg (.ready "req-123"), .msg .endOfStream]
    [.msg (.ready sampleReady),
     .msg (.text { text := "Hello", start_s := 0, stream_id := none }),
     .msg .endOfStream]
    (by decide) (by decide)
  exact ⟨h1.1, h1.2.1⟩

/-- C5 counterexample: a malformed inbound message (on which `JSON.parse`
throws) does NOT reject both waiters. The end waiter is rejected with the
decode failure, but the ready waiter is left pending — the `catch` block
calls only `endReject`, not `readyReject` — so `waitReady()` hangs rather
than rejecting. Shown for both stream directions. -/
theorem C5_counterexample :
    TTSStream.collect (TTSStream.processAll [.malformed "Unexpected token"]) =
      some (.error (.jsError "Unexpected token")) ∧
    TTSStream.waitReady (TTSStream.processAll [.malformed "Unexpected token"]) =
      none ∧
    STTStream.collectText
        (STTStream.processAll [.malformed "Unexpected token"]) =
      some (.error (.jsError "Unexpected token")) ∧
    STTStream.waitReady (STTStream.processAll [.malformed "Unexpected token"]) =
      none :=
  ⟨rfl, rfl, rfl, rfl⟩

/-- C5 (amended): a protocol decode failure terminates only the end waiter:
every outstanding and future `collect`/`collectText` call rejects with the
decode failure (provided no earlier event settled the end promise), while
the ready waiter is untouched by it — if nothing else in the history
settles the ready promise, `waitReady()` remains pending. -/
theorem C5_decode_failure
    (preT postT : List TTSInbound) (preS postS : List STTInbound)
    (em : String)
    (hTe : ∀ e ∈ preT, ttsSettlesEnd e = false)
    (hSe : ∀ e ∈ preS, sttSettlesEnd e = false) :
    TTSStream.collect
        (TTSStream.processAll (preT ++ .malformed em :: postT)) =
      some (.error (.jsError em)) ∧
    ((∀ e ∈ preT, ttsSettlesReady e = false) →
     (∀ e ∈ postT, ttsSettlesReady e = false) →
      TTSStream.waitReady
          (TTSStream.processAll (preT ++ .malformed em :: postT)) = none) ∧
    STTStream.collectText
        (STTStream.processAll (preS ++ .malformed em :: postS)) =
      some (.error (.jsError em)) ∧
    ((∀ e ∈ preS, sttSettlesReady e = false) →
     (∀ e ∈ postS, sttSettlesReady e = false) →
      STTStream.waitReady
          (STTStream.processAll (preS ++ .malformed em :: postS)) = none) := by
  refine ⟨?_, ?_, ?_, ?_⟩
  · have hE := ttsProcess_malformed_endState preT postT em hTe
    simp [TTSStream.collect, hE]
  · intro h1 h2
    have hall : ∀ e ∈ preT ++ TTSInbound.malformed em :: postT,
        ttsSettlesReady e = false := by
      intro e he
      rcases List.mem_append.mp he with ha | hb
      · exact h1 e ha
      · rcases List.mem_cons.mp hb with rfl | hc
        · rfl
        · exact h2 e hc
    rw [TTSStream.waitReady, TTSStream.processAll,
      ttsRun_readyState_skip _ _ hall]
    rfl
  · have hE := sttProcess_malformed_endState preS postS em hSe
    simp [STTStream.collectText, hE]
  · intro h1 h2
    have hall : ∀ e ∈ preS ++ STTInbound.malformed em :: postS,
        sttSettlesReady e = false := by
      intro e he
      rcases List.mem_append.mp he with ha | hb
      · exact h1 e ha
      · rcases List.mem_cons.mp hb with rfl | hc
        · rfl
        · exact h2 e hc
    rw [STTStream.waitReady, STTStream.processAll,
      sttRun_readyState_skip _ _ hall]
    rfl

/-- C5 witness: a bare malformed message — the end waiter rejects with the
decode failure, the ready waiter stays pending. -/
theorem C5_decode_failure_witness :
    TTSStream.collect (TTSStream.processAll [.malformed "SyntaxError"]) =
      some (.error (.jsError "SyntaxError")) ∧
    TTSStream.waitReady (TTSStream.processAll [.malformed "SyntaxError"]) =
      none ∧
    STTStream.collectText (STTStream.processAll [.malformed "SyntaxError"]) =
      some (.error (.jsError "SyntaxError")) ∧
    STTStream.waitReady (STTStream.processAll [.malformed "SyntaxError"]) =
      none := by
  have h := C5_decode_failure [] [] [] [] "SyntaxError" (by simp) (by simp)
  exact ⟨h.1, h.2.1 (by simp) (by simp), h.2.2.1,
    h.2.2.2 (by simp) (by simp)⟩

/-- C6 counterexample: after `[ready, error]` the session is in a terminal
Failed phase (the end promise is rejected), yet `sendText` does not throw —
it writes the envelope to the channel — because `isReady` is never reset.
So "throws iff the phase is not Active" fails: the phase is not Active
(it is Failed), but nothing is thrown. Same for STT `sendAudio`. -/
theorem C6_counterexample :
    (TTSStream.processAll
        [.msg (.ready "req-123"), .msg (.error "boom" 1006)]).endState =
      some (.error (.webSocket "boom" (some 1006))) ∧
    TTSStream.sendText
        (TTSStream.processAll
          [.msg (.ready "req-123"), .msg (.error "boom" 1006)]) "hi" =
      .ok (.text "hi") ∧
    (STTStream.processAll
        [.msg (.ready sampleReady), .msg (.error "boom" 1006)]).endState =
      some (.error (.webSocket "boom" (some 1006))) ∧
    STTStream.sendAudio
        (STTStream.processAll
          [.msg (.ready sampleReady), .msg (.error "boom" 1006)]) [1, 2] =
      .ok (.audio (b64encode [1, 2])) :=
  ⟨rfl, rfl, rfl, rfl⟩

/-- C6 (amended): `sendText`/`sendAudio` throw the local synchronous
not-ready `WebSocketError` and write nothing if and only if no `ready`
envelope has been processed (`isReady` still false); once a `ready` has
been processed the send writes its envelope to the channel — even after a
terminal state, since `isReady` is never reset. -/
theorem C6_send_gating (lT : List TTSInbound) (t : String)
    (lS : List STTInbound) (a : List Nat) :
    (ttsHasReady lT = false →
      TTSStream.sendText (TTSStream.processAll lT) t = .error notReadyError) ∧
    (ttsHasReady lT = true →
      TTSStream.sendText (TTSStream.processAll lT) t = .ok (.text t)) ∧
    (sttHasReady lS = false →
      STTStream.sendAudio (STTStream.processAll lS) a = .error notReadyError) ∧
    (sttHasReady lS = true →
      STTStream.sendAudio (STTStream.processAll lS) a =
        .ok (.audio (b64encode a))) := by
  have hT : (TTSStream.processAll lT).isReady = ttsHasReady lT := by
    rw [TTSStream.processAll, ttsRun_isReady]
    rfl
  have hS : (STTStream.processAll lS).isReady = sttHasReady lS := by
    rw [STTStream.processAll, sttRun_isReady]
    rfl
  refine ⟨?_, ?_, ?_, ?_⟩ <;> intro h
  · simp [TTSStream.sendText, hT, h]
  · simp [TTSStream.sendText, hT, h]
  · simp [STTStream.sendAudio, hS, h]
  · simp [STTStream.sendAudio, hS, h]

/-- C6 witness: before any ready the send throws the local error; after a
ready it writes the envelope. -/
theorem C6_send_gating_witness :
    TTSStream.sendText (TTSStream.processAll []) "Hello" =
      .error notReadyError ∧
    TTSStream.sendText (TTSStream.processAll [.msg (.ready "req-123")])
        "Hello" = .ok (.text "Hello") ∧
    STTStream.sendAudio (STTStream.processAll []) [1, 2, 3] =
      .error notReadyError ∧
    STTStream.sendAudio (STTStream.processAll [.msg (.ready sampleReady)])
        [1, 2, 3] = .ok (.audio (b64encode [1, 2, 3])) :=
  ⟨(C6_send_gating [] "Hello" [] [1, 2, 3]).1 rfl,
   (C6_send_gating [.msg (.ready "req-123")] "Hello" [] [1, 2, 3]).2.1 rfl,
   (C6_send_gating [] "Hello" [] [1, 2, 3]).2.2.1 rfl,
   (C6_send_gating [] "Hello" [.msg (.ready sampleReady)] [1, 2, 3]).2.2.2 rfl⟩

/-- C7: for every well-typed outbound envelope (TTS `setup`/`text`/
`end_of_stream`, STT `setup`/`audio`/`end_of_stream`), encoding with the
codec and decoding the result yields a structurally equal envelope; and for
every byte array `a`, decoding the base64 string produced when sending `a`
as an audio envelope gives back exactly `a`. -/
theorem C7_codec_roundtrip :
    (∀ m : TTSClientMessage,
        TTSClientMessage.decode (TTSClientMessage.encode m) = some m) ∧
    (∀ m : STTClientMessage,
        STTClientMessage.decode (STTClientMessage.encode m) = some m) ∧
    (∀ a : List Nat, (∀ b ∈ a, b < 256) → b64decode (b64encode a) = some a) := by
  refine ⟨?_, ?_, b64_roundtrip⟩
  · intro m
    cases m with
    | setup v f mn cfg => cases cfg <;> rfl
    | text t => rfl
    | endOfStream => rfl
  · intro m
    cases m <;> rfl

/-- C7 witness: the round trips evaluated at concrete envelopes and at the
byte array `[1, 2, 3]`. -/
theorem C7_codec_roundtrip_witness :
    TTSClientMessage.decode (TTSClientMessage.encode (.text "Hello")) =
      some (.text "Hello") ∧
    STTClientMessage.decode (STTClientMessage.encode (.setup "default" "pcm")) =
      some (.setup "default" "pcm") ∧
    b64decode (b64encode [1, 2, 3]) = some [1, 2, 3] :=
  ⟨C7_codec_roundtrip.1 (.text "Hello"),
   C7_codec_roundtrip.2.1 (.setup "default" "pcm"),
   C7_codec_roundtrip.2.2 [1, 2, 3] (by decide)⟩

/-- C8: `handleAPIError` throws exactly the class determined by the status:
422 with a detail list → `ValidationError` with those details; 401/403 →
`AuthenticationError`; 404 → `NotFoundError`; 429 → `RateLimitError`
carrying the parsed `retry-after` value; ≥ 500 → `InternalServerError`; any
other status → generic `APIError`. The model returns the thrown error, so
it never returns normally by construction. -/
theorem C8_handleAPIError_mapping (status : Nat) (body : APIBody)
    (ra : Option Nat) :
    (status = 422 → ∀ d, body = .detailList d →
      handleAPIError status body ra = .validation d (formatErrors d)) ∧
    (status = 401 ∨ status = 403 →
      handleAPIError status body ra =
        .authentication (detailString body "Authentication failed")) ∧
    (status = 404 →
      handleAPIError status body ra =
        .notFound (detailString body "Resource not found")) ∧
    (status = 429 →
      handleAPIError status body ra =
        .rateLimit (detailString body "Rate limit exceeded") ra) ∧
    (500 ≤ status →
      handleAPIError status body ra =
        .internalServer status
          (detailString body ("Server error (" ++ toString status ++ ")"))) ∧
    (status ≠ 401 → status ≠ 403 → status ≠ 404 → status ≠ 422 →
      status ≠ 429 → status < 500 →
      handleAPIError status body ra =
        .api status (detailString body ("API error (" ++ toString status ++ ")"))
          body) := by
  refine ⟨?_, ?_, ?_, ?_, ?_, ?_⟩
  · rintro rfl d rfl
    rw [handleAPIError.eq_def, if_pos ⟨rfl, by simp⟩]
  · intro h
    rw [handleAPIError.eq_def, if_neg (by rintro ⟨h422, _⟩; omega), if_pos h]
  · rintro rfl
    rw [handleAPIError.eq_def, if_neg (by rintro ⟨h422, _⟩; omega),
      if_neg (by omega), if_pos rfl]
  · rintro rfl
    rw [handleAPIError.eq_def, if_neg (by rintro ⟨h422, _⟩; omega),
      if_neg (by omega), if_neg (by omega), if_pos rfl]
  · intro h5
    rw [handleAPIError.eq_def, if_neg (by rintro ⟨h422, _⟩; omega),
      if_neg (by omega), if_neg (by omega), if_neg (by omega), if_pos h5]
  · intro h1 h2 h3 h4 h5 h6
    rw [handleAPIError.eq_def, if_neg (by rintro ⟨h422, _⟩; omega),
      if_neg (by omega), if_neg (by omega), if_neg (by omega),
      if_neg (by omega)]

/-- C8 witness: the mapping evaluated at a 422 validation response, a 429
with `retry-after: 60`, and a 503. -/
theorem C8_handleAPIError_mapping_witness :
    handleAPIError 422
        (.detailList [{ loc := [.inl "body", .inl "text"], msg := "required",
                        type := "missing" }]) none =
      .validation [{ loc := [.inl "body", .inl "text"], msg := "required",
                     type := "missing" }] "body.text: required" ∧
    handleAPIError 429 (.detailStr "Rate limit exceeded") (some 60) =
      .rateLimit "Rate limit exceeded" (some 60) ∧
    handleAPIError 503 .other none =
      .internalServer 503 "Server error (503)" := by
  refine ⟨?_, ?_, ?_⟩
  · have h := (C8_handleAPIError_mapping 422
      (.detailList [{ loc := [.inl "body", .inl "text"], msg := "required",
                      type := "missing" }]) none).1 rfl _ rfl
    rw [h]
    rfl
  · exact (C8_handleAPIError_mapping 429
      (.detailStr "Rate limit exceeded") (some 60)).2.2.2.1 rfl
  · have h := (C8_handleAPIError_mapping 503 .other none).2.2.2.2.1
      (by omega)
    rw [h]
    rfl

/-- C9: whatever the inbound message sequence, when `collect()` returns a
result its `sample_rate` is the hardcoded constant 48000 (the TTS ready
envelope carries no sample rate and nothing ever assigns the field). -/
theorem C9_sample_rate_constant (evs : List TTSInbound) (r : TTSResult)
    (h : TTSStream.collect (TTSStream.processAll evs) = some (.ok r)) :
    r.sample_rate = 48000 := by
  rcases hE : (TTSStream.processAll evs).endState with _ | v
  · simp only [TTSStream.collect, hE] at h
    exact Option.noConfusion h
  · cases v with
    | error e =>
        simp only [TTSStream.collect, hE, Option.some.injEq] at h
        exact Except.noConfusion h
    | ok u =>
        simp only [TTSStream.collect, hE, Option.some.injEq,
          Except.ok.injEq] at h
        rw [← h]
        rfl

/-- C9 witness: a session that receives only `end_of_stream` collects a
result whose `sample_rate` is 48000. -/
theorem C9_sample_rate_constant_witness :
    TTSStream.collect (TTSStream.processAll [.msg .endOfStream]) =
      some (.ok { raw_data := [], sample_rate := 48000, request_id := "" }) ∧
    ({ raw_data := [], sample_rate := 48000, request_id := "" } :
        TTSResult).sample_rate = 48000 :=
  ⟨rfl, C9_sample_rate_constant [.msg .endOfStream] _ rfl⟩

/-- C10: after the session is ready, `STT.transcribe` on a byte array `a`
writes exactly ⌈|a| / 3840⌉ audio envelopes in order, each carrying at most
3840 bytes, whose base64-decoded payloads concatenate to exactly `a`,
followed by exactly one `end_of_stream` envelope. -/
theorem C10_transcribe_chunking (a : List Nat) (h : ∀ b ∈ a, b < 256) :
    ∃ cs : List (List Nat),
      STT.transcribeSends a =
        cs.map (fun c => STTClientMessage.audio (b64encode c)) ++
          [STTClientMessage.endOfStream] ∧
      cs.length = (a.length + 3839) / 3840 ∧
      (∀ c ∈ cs, c.length ≤ 3840) ∧
      (∀ c ∈ cs, b64decode (b64encode c) = some c) ∧
      cs.flatten = a := by
  refine ⟨chunksOf a, rfl, ?_, ?_, ?_, chunksOf_join a⟩
  · rw [chunksOf_length]
    rfl
  · intro c hc
    exact chunksOf_le a c hc
  · intro c hc
    exact b64_roundtrip c (chunksOf_mem_bytes a h c hc)

/-- C10 witness: the chunking property evaluated at the byte array
`[1, 2, 3]` (a single envelope). -/
theorem C10_transcribe_chunking_witness :
    ∃ cs : List (List Nat),
      STT.transcribeSends [1, 2, 3] =
        cs.map (fun c => STTClientMessage.audio (b64encode c)) ++
          [STTClientMessage.endOfStream] ∧
      cs.length = (3 + 3839) / 3840 ∧
      (∀ c ∈ cs, c.length ≤ 3840) ∧
      (∀ c ∈ cs, b64decode (b64encode c) = some c) ∧
      cs.flatten = [1, 2, 3] :=
  C10_transcribe_chunking [1, 2, 3] (by decide)

end Gradium
